import Mathlib

/-!
Shallow embedding of the picup server core (src/picup-srv/src/main.rs and
src/picup-lib/src/lib.rs): the upload ingestion pipeline (upload_img), the
retrieval path (get_img), the path construction macro (uri_concat), the
scratch wipe (truncate_temp) and the response-code table.

The filesystem is modelled as a map from lexically normalized paths (lists
of components, with "." and empty components dropped and ".." resolved, as
the operating system resolves the path strings the program builds) to file
bytes.  Spurious I/O failures (try_exists errors, File::create or write_all
failures, disk faults) are not modelled: those operations always succeed
here.  The modelled failure of rename is the one the program itself can
cause, a missing source file; rename over an existing destination replaces
it, as POSIX rename does.  Panics (Option::unwrap on None, Result::unwrap
on Err) are modelled by explicit panic outcomes carrying the filesystem at
the moment of the crash.
-/

namespace Picup

/-- Bytes of a file, one natural number per byte. -/
abbrev Bytes := List Nat

/-- Split a character list at every slash character; components between
slashes, lexical, keeping empty components. -/
def splitSlash : List Char → List (List Char)
  | [] => [[]]
  | c :: cs =>
    if c = '/' then [] :: splitSlash cs
    else
      match splitSlash cs with
      | [] => [[c]]
      | h :: t => (c :: h) :: t

/-- One step of lexical path normalization: drop empty and "." components,
resolve ".." against the stack when possible. -/
def normStep (stack : List String) (comp : String) : List String :=
  if comp = "" ∨ comp = "." then stack
  else if comp = ".." then
    if stack = [] ∨ stack.getLast? = some ".." then stack ++ [comp]
    else stack.dropLast
  else stack ++ [comp]

/-- Normalize a component list. -/
def normComps (comps : List String) : List String := comps.foldl normStep []

/-- The normalized key of a path string: split at slashes, then normalize. -/
def normKey (s : String) : List String :=
  normComps ((splitSlash s.data).map (fun l => String.mk l))

/-- The uri_concat macro of main.rs: starting from the base, push a slash
and then the segment, for each segment. -/
def uri_concat (base : String) (segs : List String) : String :=
  segs.foldl (fun uri s => uri.push '/' ++ s) base

/-- The filesystem: committed and staged files, keyed by normalized path. -/
abbrev Fs := List String → Option Bytes

/-- File::create followed by write_all: put the bytes at the path. -/
def fs_write (fs : Fs) (path : String) (b : Bytes) : Fs :=
  fun k => if k = normKey path then some b else fs k

/-- tokio::fs::rename with an existing source: the destination receives the
source's content (replacing any prior file there) and the source vanishes. -/
def fs_rename (fs : Fs) (src dst : String) : Fs :=
  fun k =>
    if k = normKey dst then fs (normKey src)
    else if k = normKey src then none
    else fs k

/-- truncate_temp of main.rs: remove_dir_all on `<dir>/temp` then create_dir,
i.e. erase every file under the temp directory. -/
def truncate_temp (dir : String) (fs : Fs) : Fs :=
  fun k => if (normKey (uri_concat dir ["temp"])).isPrefixOf k then none else fs k

/-- Per-category policy (struct CategoryConfig of main.rs). -/
structure CategoryConfig where
  allow_non_image_content : Bool
deriving DecidableEq

/-- Server state (struct SrvState of main.rs); the category table is the
association list loaded from configuration. -/
structure SrvState where
  categories : List (String × CategoryConfig)
  access_token : String
  pic_url_prefix : String
  pic_directory : String

/-- Query parameters of an upload (struct UploadImgParam of lib.rs). -/
structure UploadImgParam where
  override : Bool
  compress : Nat
  category : String
  access_token : String

/-- One multipart field: client-declared filename and content type, and the
result of reading its byte stream (none models a failed read). -/
structure Part where
  file_name : Option String
  content_type : Option String
  bytes : Option Bytes

namespace ResponseCode

def OK : Nat := 0
def NOT_IMPLEMENTED : Nat := 998
def INTERNAL_ERROR : Nat := 999
def INVALID_TOKEN : Nat := 1001
def BAD_FILE_NAME : Nat := 1002
def NOT_A_IMAGE : Nat := 1003
def FILE_EXISTED : Nat := 1004
def BAD_FILE : Nat := 1005
def INVALID_CATEGORY : Nat := 1006

end ResponseCode

/-- Does pat occur as a contiguous substring of the list (str::contains)? -/
def has_sub (pat : List Char) : List Char → Bool
  | [] => pat.isPrefixOf []
  | c :: rest => pat.isPrefixOf (c :: rest) || has_sub pat rest

/-- Rust str::contains for strings. -/
def contains_sub (hay pat : String) : Bool := has_sub pat.data hay.data

/-- Upper-case hexadecimal digit. -/
def hex_digit (d : Nat) : Char := if d < 10 then Char.ofNat (48 + d) else Char.ofNat (55 + d)

/-- UTF-8 bytes of a unicode code point. -/
def utf8_bytes (n : Nat) : List Nat :=
  if n < 128 then [n]
  else if n < 2048 then [192 + n / 64, 128 + n % 64]
  else if n < 65536 then [224 + n / 4096, 128 + n / 64 % 64, 128 + n % 64]
  else [240 + n / 262144, 128 + n / 4096 % 64, 128 + n / 64 % 64, 128 + n % 64]

/-- Is the character percent-encoding-exempt (urlencoding crate)? -/
def unreserved (c : Char) : Bool :=
  c.isAlpha || c.isDigit || c = '-' || c = '_' || c = '.' || c = '~'

/-- urlencoding::encode: percent-encode every non-unreserved byte. -/
def encode (s : String) : String :=
  String.mk (s.data.foldr (fun c acc =>
    (if unreserved c then [c]
     else (utf8_bytes c.toNat).foldr
       (fun b a => '%' :: hex_digit (b / 16) :: hex_digit (b % 16) :: a) []) ++ acc) [])

/-- Outcome of the content-type gate
`!allow_non_image_content && !content_type.unwrap().contains("image")`:
with the flag set the conjunction short-circuits (gate passes); with the
flag clear a missing content type is unwrapped, a panic. -/
inductive CtGate where
  | panicCt
  | reject
  | pass
deriving DecidableEq

/-- The content-type gate of upload_img (main.rs lines 155-162). -/
def ct_gate (cfg : CategoryConfig) (ct : Option String) : CtGate :=
  if cfg.allow_non_image_content then .pass
  else
    match ct with
    | none => .panicCt
    | some s => if contains_sub s "image" then .pass else .reject

/-- Result of the staging loop of upload_img. -/
inductive StageRes where
  | panicked (fs : Fs)
  | failed (code : Nat) (msg : String) (fs : Fs)
  | staged (file_names : List String) (fs : Fs)

/-- The staging loop of upload_img (main.rs lines 143-199): per part, the
filename gate, the content-type gate, the collision pre-check against
`<dir>/<category>/<filename>`, the stream read, and the write into
`<dir>/temp/<filename>`. -/
def stage_files (cfg : CategoryConfig) (ov : Bool) (dir cat : String) :
    List Part → Nat → List String → Fs → StageRes
  | [], _, file_names, fs => .staged file_names fs
  | p :: rest, handled, file_names, fs =>
    match p.file_name with
    | none =>
      .failed ResponseCode.BAD_FILE_NAME
        ("invalid file name, file no: " ++ toString (handled + 1)) fs
    | some file_name =>
      match ct_gate cfg p.content_type with
      | .panicCt => .panicked fs
      | .reject => .failed ResponseCode.NOT_A_IMAGE ("not a image: " ++ file_name) fs
      | .pass =>
        let file_path := uri_concat dir [cat, file_name]
        if ov = false ∧ (fs (normKey file_path)).isSome then
          .failed ResponseCode.FILE_EXISTED ("file existed: " ++ file_name) fs
        else
          match p.bytes with
          | none => .failed ResponseCode.BAD_FILE ("bad file: " ++ file_name) fs
          | some b =>
            let file_temp_path := uri_concat dir ["temp", file_name]
            stage_files cfg ov dir cat rest (handled + 1)
              (file_names ++ [file_name]) (fs_write fs file_temp_path b)

/-- Result of the commit loop of upload_img. -/
inductive CommitRes where
  | panicked (fs : Fs)
  | committed (image_urls : List String) (fs : Fs)

/-- The commit loop of upload_img (main.rs lines 201-218): for each staged
filename, rename `<dir>/temp/<f>` to `<dir>/asset/<category>/<f>` — the
rename's Result is unwrapped, so a missing source is a panic — then push
the public url. -/
def commit_all (dir cat pref : String) : List String → List String → Fs → CommitRes
  | [], image_urls, fs => .committed image_urls fs
  | file_name :: rest, image_urls, fs =>
    let src := uri_concat dir ["temp", file_name]
    let dst := uri_concat dir ["asset", cat, file_name]
    match fs (normKey src) with
    | none => .panicked fs
    | some _ =>
      commit_all dir cat pref rest
        (image_urls ++ [uri_concat pref ["asset", cat, encode file_name]])
        (fs_rename fs src dst)

/-- Outcome of one upload_img call: a panic, or an HTTP response
(status, envelope code, message, optional data) with the resulting
filesystem. -/
inductive UpOutcome where
  | panicked (fs : Fs)
  | resp (status : Nat) (code : Nat) (msg : String) (data : Option (List String)) (fs : Fs)

def UpOutcome.status : UpOutcome → Option Nat
  | .panicked _ => none
  | .resp st _ _ _ _ => some st

def UpOutcome.code : UpOutcome → Option Nat
  | .panicked _ => none
  | .resp _ c _ _ _ => some c

def UpOutcome.fs_now : UpOutcome → Fs
  | .panicked fs => fs
  | .resp _ _ _ _ fs => fs

def UpOutcome.is_panic : UpOutcome → Bool
  | .panicked _ => true
  | .resp _ _ _ _ _ => false

/-- upload_img of main.rs (lines 107-221): wipe the scratch directory, then
the token gate, the category gate, the compression gate, the staging loop,
and the commit loop. -/
def upload_img (state : SrvState) (param : UploadImgParam) (parts : List Part)
    (fs0 : Fs) : UpOutcome :=
  let fs1 := truncate_temp state.pic_directory fs0
  if param.access_token ≠ state.access_token then
    .resp 400 ResponseCode.INVALID_TOKEN "invalid token" none fs1
  else
    match state.categories.lookup param.category with
    | none => .resp 400 ResponseCode.INVALID_CATEGORY "invalid category" none fs1
    | some category_config =>
      if param.compress ≠ 0 then
        .resp 400 ResponseCode.NOT_IMPLEMENTED "not implemented: compress" none fs1
      else
        match stage_files category_config param.override state.pic_directory
            param.category parts 0 [] fs1 with
        | .panicked fs => .panicked fs
        | .failed code msg fs => .resp 400 code msg none fs
        | .staged file_names fs =>
          match commit_all state.pic_directory param.category state.pic_url_prefix
              file_names [] fs with
          | .panicked fs => .panicked fs
          | .committed image_urls fs =>
            .resp 200 ResponseCode.OK "ok" (some image_urls) fs

/-- get_img of main.rs (lines 223-253): unknown category → 404 empty; open
`<dir>/asset/<category>/<filename>`, failure → 404 empty; then a nonzero
compress parameter → 501 empty; otherwise 200 with the file's bytes. -/
def get_img (state : SrvState) (fs : Fs) (category file_name : String)
    (compress : Nat) : Nat × Bytes :=
  if (state.categories.lookup category).isNone then (404, [])
  else
    match fs (normKey (uri_concat state.pic_directory
        ["asset", category, file_name])) with
    | none => (404, [])
    | some b => if compress ≠ 0 then (501, []) else (200, b)

/-- Resulting filesystem of a staging-loop outcome. -/
def StageRes.fs_now : StageRes → Fs
  | .panicked fs => fs
  | .failed _ _ fs => fs
  | .staged _ fs => fs

/-- A filename that stays inside the directory it is joined to: it contains
no slash and is none of the special components. -/
def clean_name (f : String) : Prop :=
  ( '/' ∉ f.data) ∧ f ≠ "" ∧ f ≠ "." ∧ f ≠ ".."

/-- A part whose supplied filename, if any, is clean. -/
def part_name_clean (p : Part) : Prop :=
  clean_name (p.file_name.getD "f")

instance (f : String) : Decidable (clean_name f) := by
  unfold clean_name
  infer_instance

instance (p : Part) : Decidable (part_name_clean p) := by
  unfold part_name_clean
  infer_instance

theorem splitSlash_ne_nil : ∀ l : List Char, splitSlash l ≠ []
  | [] => by simp [splitSlash]
  | c :: cs => by
    simp only [splitSlash]
    split
    · simp
    · split
      · simp
      · simp

theorem splitSlash_append : ∀ a b : List Char,
    splitSlash (a ++ '/' :: b) = splitSlash a ++ splitSlash b
  | [], b => by simp [splitSlash]
  | c :: cs, b => by
    have ih := splitSlash_append cs b
    have hnn := splitSlash_ne_nil cs
    cases hcs : splitSlash cs with
    | nil => exact absurd hcs hnn
    | cons h t =>
      rw [hcs] at ih
      by_cases hc : c = '/'
      · subst hc
        simp [splitSlash, ih, hcs]
      · simp [splitSlash, hc, ih, hcs]

theorem splitSlash_no_slash : ∀ l : List Char, ( '/' ∉ l) → splitSlash l = [l]
  | [], _ => rfl
  | c :: cs, h => by
    have hc : ¬ c = '/' := by
      intro hc
      exact h (hc ▸ List.mem_cons_self c cs)
    have ih := splitSlash_no_slash cs (fun hm => h (List.mem_cons_of_mem _ hm))
    simp [splitSlash, hc, ih]

theorem data_append (s t : String) : (s ++ t).data = s.data ++ t.data := rfl

theorem data_push (s : String) (c : Char) : (s.push c).data = s.data ++ [c] := rfl

theorem mk_data (s : String) : String.mk s.data = s := rfl

theorem uri1_data (dir a : String) :
    (uri_concat dir [a]).data = dir.data ++ '/' :: a.data := by
  show (dir.push '/' ++ a).data = _
  rw [data_append, data_push]
  simp

theorem uri2_data (dir a b : String) :
    (uri_concat dir [a, b]).data = dir.data ++ '/' :: (a.data ++ '/' :: b.data) := by
  show ((dir.push '/' ++ a).push '/' ++ b).data = _
  rw [data_append, data_push, data_append, data_push]
  simp

theorem normStep_ordinary (stack : List String) (c : String)
    (h1 : c ≠ "") (h2 : c ≠ ".") (h3 : c ≠ "..") :
    normStep stack c = stack ++ [c] := by
  simp [normStep, h1, h2, h3]

theorem normKey_seg1 (dir s : String) (hs : '/' ∉ s.data)
    (h1 : s ≠ "") (h2 : s ≠ ".") (h3 : s ≠ "..") :
    normKey (uri_concat dir [s]) = normKey dir ++ [s] := by
  unfold normKey
  rw [uri1_data, splitSlash_append, splitSlash_no_slash s.data hs, List.map_append]
  unfold normComps
  rw [List.foldl_append]
  simp [normStep_ordinary _ s h1 h2 h3, mk_data]

theorem normKey_seg2 (dir a b : String)
    (hsa : '/' ∉ a.data) (ha1 : a ≠ "") (ha2 : a ≠ ".") (ha3 : a ≠ "..")
    (hsb : '/' ∉ b.data) (hb1 : b ≠ "") (hb2 : b ≠ ".") (hb3 : b ≠ "..") :
    normKey (uri_concat dir [a, b]) = normKey dir ++ [a, b] := by
  unfold normKey
  rw [uri2_data, splitSlash_append, splitSlash_append,
    splitSlash_no_slash a.data hsa, splitSlash_no_slash b.data hsb, List.map_append,
    List.map_append]
  unfold normComps
  rw [List.foldl_append, List.foldl_append]
  simp only [List.map_cons, List.map_nil, List.foldl_cons, List.foldl_nil, mk_data]
  rw [normStep_ordinary _ a ha1 ha2 ha3, normStep_ordinary _ b hb1 hb2 hb3]
  simp

/-- Two one-segment extensions of the same stem that both lead toward a key
name the same segment. -/
theorem prefix_same_head {g : List String} {a b : String} {k : List String}
    (hpa : (g ++ [a]).isPrefixOf k = true) (hpb : (g ++ [b]).isPrefixOf k = true) :
    a = b := by
  rw [List.isPrefixOf_iff_prefix] at hpa hpb
  obtain ⟨t1, e1⟩ := hpa
  obtain ⟨t2, e2⟩ := hpb
  rw [← e2] at e1
  rw [List.append_assoc, List.append_assoc] at e1
  have := List.append_cancel_left e1
  exact (List.cons.injEq _ _ _ _ ▸ this).1

/-- A key below `<stem>/<a>` never equals a path of the form
`<stem>/<b>/...` when the segments differ. -/
theorem prefix_ne_cons {g : List String} {a b : String} {xs k : List String}
    (hab : a ≠ b) (hpa : (g ++ [a]).isPrefixOf k = true) :
    k ≠ g ++ b :: xs := by
  intro hk
  subst hk
  rw [List.isPrefixOf_iff_prefix] at hpa
  obtain ⟨t, e⟩ := hpa
  rw [List.append_assoc] at e
  have := List.append_cancel_left e
  exact hab (List.cons.injEq _ _ _ _ ▸ this).1

/-- A key below `<stem>/<a>` is never below `<stem>/<b>` when the segments
differ. -/
theorem prefix_not_other {g : List String} {a b : String} {k : List String}
    (hab : a ≠ b) (hpa : (g ++ [a]).isPrefixOf k = true) :
    (g ++ [b]).isPrefixOf k = false := by
  cases hpb : (g ++ [b]).isPrefixOf k with
  | false => rfl
  | true => exact absurd (prefix_same_head hpa hpb) hab

/-- Wiping the scratch directory does not touch a key under the committed
area `<dir>/asset`. -/
theorem truncate_temp_outside (dir : String) (fs0 : Fs) (k : List String)
    (hk : (normKey dir ++ ["asset"]).isPrefixOf k = true) :
    truncate_temp dir fs0 k = fs0 k := by
  unfold truncate_temp
  rw [normKey_seg1 dir "temp" (by decide) (by decide) (by decide) (by decide)]
  rw [prefix_not_other (by decide) hk]
  simp

/-- The staging loop never changes a key under the committed area
`<dir>/asset`, as long as every part's supplied filename is clean: its
writes land under `<dir>/temp`. -/
theorem stage_files_outside (cfg : CategoryConfig) (ov : Bool) (dir cat : String) :
    ∀ (parts : List Part) (h : Nat) (ns : List String) (fs : Fs),
    (∀ p ∈ parts, part_name_clean p) →
    ∀ k, (normKey dir ++ ["asset"]).isPrefixOf k = true →
      (stage_files cfg ov dir cat parts h ns fs).fs_now k = fs k
  | [], h, ns, fs, _, k, hk => rfl
  | p :: rest, h, ns, fs, hclean, k, hk => by
    simp only [stage_files]
    cases hfn : p.file_name with
    | none => rfl
    | some f =>
      cases hg : ct_gate cfg p.content_type with
      | panicCt => rfl
      | reject => rfl
      | pass =>
        simp only []
        split
        · rfl
        · cases hb : p.bytes with
          | none => rfl
          | some b =>
            have hcf : clean_name f := by
              have := hclean p (List.mem_cons_self _ _)
              unfold part_name_clean at this
              rw [hfn] at this
              exact this
            obtain ⟨hs, h1, h2, h3⟩ := hcf
            have ih := stage_files_outside cfg ov dir cat rest (h + 1) (ns ++ [f])
              (fs_write fs (uri_concat dir ["temp", f]) b)
              (fun q hq => hclean q (List.mem_cons_of_mem _ hq)) k hk
            rw [ih]
            unfold fs_write
            rw [normKey_seg2 dir "temp" f (by decide) (by decide) (by decide) (by decide)
              hs h1 h2 h3]
            rw [if_neg (prefix_ne_cons (by decide) hk)]

/-- Processing a concatenation of part lists: the loop either stops inside
the first block, or completes it and continues into the second. -/
theorem stage_files_app (cfg : CategoryConfig) (ov : Bool) (dir cat : String) :
    ∀ (xs ys : List Part) (h : Nat) (ns : List String) (fs : Fs),
    stage_files cfg ov dir cat (xs ++ ys) h ns fs =
      match stage_files cfg ov dir cat xs h ns fs with
      | .staged ns' fs' => stage_files cfg ov dir cat ys (h + xs.length) ns' fs'
      | r => r
  | [], ys, h, ns, fs => by simp [stage_files]
  | p :: xs, ys, h, ns, fs => by
    obtain ⟨fn, ctp, bs⟩ := p
    cases fn with
    | none => simp [stage_files]
    | some f =>
      cases hg : ct_gate cfg ctp with
      | panicCt => simp [stage_files, hg]
      | reject => simp [stage_files, hg]
      | pass =>
        cases bs with
        | none =>
          simp only [List.cons_append, stage_files, hg]
          split <;> rfl
        | some b =>
          simp only [List.cons_append, stage_files, hg, List.length_cons, List.append_eq]
          split
          · rfl
          · rw [stage_files_app cfg ov dir cat xs ys (h + 1) (ns ++ [f])
              (fs_write fs (uri_concat dir ["temp", f]) b)]
            have harith : h + 1 + xs.length = h + (xs.length + 1) := by omega
            rw [harith]

/-- With allow_non_image_content set, the staging loop can never fail with
the NOT_A_IMAGE code: the content-type gate short-circuits. -/
theorem stage_files_no_reject (cfg : CategoryConfig)
    (hallow : cfg.allow_non_image_content = true) (ov : Bool) (dir cat : String) :
    ∀ (parts : List Part) (h : Nat) (ns : List String) (fs : Fs)
      (c : Nat) (m : String) (fs' : Fs),
    stage_files cfg ov dir cat parts h ns fs = .failed c m fs' →
      c ≠ ResponseCode.NOT_A_IMAGE
  | [], h, ns, fs, c, m, fs', he => by simp [stage_files] at he
  | p :: rest, h, ns, fs, c, m, fs', he => by
    simp only [stage_files] at he
    cases hfn : p.file_name with
    | none =>
      rw [hfn] at he
      cases he
      decide
    | some f =>
      rw [hfn] at he
      have hg : ct_gate cfg p.content_type = CtGate.pass := by
        simp [ct_gate, hallow]
      rw [hg] at he
      simp only [] at he
      split at he
      · cases he
        decide
      · cases hb : p.bytes with
        | none =>
          rw [hb] at he
          cases he
          decide
        | some b =>
          rw [hb] at he
          exact stage_files_no_reject cfg hallow ov dir cat rest (h + 1)
            (ns ++ [f]) (fs_write fs (uri_concat dir ["temp", f]) b) c m fs' he

/-- C1: for every category in the policy table and every file part with a
filename and bytes that passes all the upload gates (matching token, known
category, compress 0, content-type policy satisfied, no disallowed
collision at the pre-checked path), uploading and then retrieving the same
(category, filename) yields HTTP 200 with exactly the uploaded bytes. -/
theorem C1_round_trip (S : SrvState) (param : UploadImgParam) (cfg : CategoryConfig)
    (f : String) (ct : Option String) (B : Bytes) (fs0 : Fs)
    (htok : param.access_token = S.access_token)
    (hcat : S.categories.lookup param.category = some cfg)
    (hcp : param.compress = 0)
    (hct : ct_gate cfg ct = CtGate.pass)
    (hcol : param.override = true ∨
      ((truncate_temp S.pic_directory fs0)
        (normKey (uri_concat S.pic_directory [param.category, f]))).isSome = false) :
    (upload_img S param [⟨some f, ct, some B⟩] fs0).status = some 200 ∧
    (upload_img S param [⟨some f, ct, some B⟩] fs0).code = some ResponseCode.OK ∧
    get_img S (upload_img S param [⟨some f, ct, some B⟩] fs0).fs_now param.category f 0
      = (200, B) := by
  have hne : ¬ param.access_token ≠ S.access_token := by simp [htok]
  have hcp' : ¬ param.compress ≠ 0 := by simp [hcp]
  have hcond : ¬ (param.override = false ∧
      ((truncate_temp S.pic_directory fs0)
        (normKey (uri_concat S.pic_directory [param.category, f]))).isSome = true) := by
    rcases hcol with ho | hs
    · rintro ⟨h1, _⟩
      rw [ho] at h1
      cases h1
    · rintro ⟨_, h2⟩
      rw [hs] at h2
      cases h2
  simp only [upload_img, if_neg hne, hcat, if_neg hcp', stage_files, hct, if_neg hcond,
    List.nil_append, commit_all, fs_write, if_pos rfl, UpOutcome.status, UpOutcome.code,
    UpOutcome.fs_now]
  refine ⟨rfl, rfl, ?_⟩
  simp [get_img, hcat, fs_rename, fs_write]

/-- C5: any upload whose supplied token differs from the configured token
is answered with the InvalidToken envelope, whatever the category, parts
or override value; only the scratch wipe has touched the filesystem. -/
theorem C5_invalid_token (S : SrvState) (param : UploadImgParam)
    (parts : List Part) (fs0 : Fs)
    (htok : param.access_token ≠ S.access_token) :
    upload_img S param parts fs0 =
      .resp 400 ResponseCode.INVALID_TOKEN "invalid token" none
        (truncate_temp S.pic_directory fs0) := by
  unfold upload_img
  rw [if_pos htok]

/-- A concrete server state for the examples: one category "pic" that
allows any content, token "t", url prefix "u", storage directory "d". -/
def exS : SrvState := ⟨[("pic", ⟨true⟩)], "t", "u", "d"⟩

/-- As exS but the category only allows image content. -/
def exSimg : SrvState := ⟨[("pic", ⟨false⟩)], "t", "u", "d"⟩

/-- Upload parameters: no override, compress 0, category "pic", the right
token. -/
def exP : UploadImgParam := ⟨false, 0, "pic", "t"⟩

/-- The empty filesystem. -/
def exFs : Fs := fun _ => none

/-- A filesystem holding one committed asset d/asset/pic/a with bytes [1]. -/
def exFs1 : Fs := fun k => if k = ["d", "asset", "pic", "a"] then some [1] else none

theorem C1_round_trip_witness :
    (upload_img exS exP [⟨some "a.png", some "image/png", some [3, 5]⟩] exFs).status
      = some 200 ∧
    (upload_img exS exP [⟨some "a.png", some "image/png", some [3, 5]⟩] exFs).code
      = some ResponseCode.OK ∧
    get_img exS (upload_img exS exP [⟨some "a.png", some "image/png", some [3, 5]⟩]
      exFs).fs_now exP.category "a.png" 0 = (200, [3, 5]) :=
  C1_round_trip exS exP ⟨true⟩ "a.png" (some "image/png") [3, 5] exFs
    rfl (by decide) rfl (by decide) (Or.inr (by decide))

theorem C5_invalid_token_witness :
    (upload_img exS ⟨false, 0, "pic", "wrong"⟩ [⟨some "a", some "image/png", some [1]⟩]
      exFs).code = some ResponseCode.INVALID_TOKEN := by
  rw [C5_invalid_token exS ⟨false, 0, "pic", "wrong"⟩
    [⟨some "a", some "image/png", some [1]⟩] exFs (by decide)]
  rfl

/-- C2 (amended): when an upload returns a failure envelope, the committed
store (everything under `<dir>/asset`) is unchanged, provided every part's
supplied filename is clean (no slash, not empty, "." or ".."); without that
proviso a traversal filename can stage a file directly into the committed
area before a later part fails. -/
theorem C2_all_or_nothing (S : SrvState) (param : UploadImgParam)
    (parts : List Part) (fs0 : Fs)
    (hclean : ∀ p ∈ parts, part_name_clean p)
    (hfail : (upload_img S param parts fs0).status = some 400) :
    ∀ k, (normKey S.pic_directory ++ ["asset"]).isPrefixOf k = true →
      (upload_img S param parts fs0).fs_now k = fs0 k := by
  intro k hk
  have htr := truncate_temp_outside S.pic_directory fs0 k hk
  unfold upload_img at hfail ⊢
  by_cases ht : param.access_token ≠ S.access_token
  · rw [if_pos ht]
    simpa [UpOutcome.fs_now] using htr
  · rw [if_neg ht] at hfail ⊢
    cases hcat : S.categories.lookup param.category with
    | none =>
      simp only [hcat] at hfail ⊢
      simpa [UpOutcome.fs_now] using htr
    | some cfg =>
      simp only [hcat] at hfail ⊢
      by_cases hcp : param.compress ≠ 0
      · rw [if_pos hcp] at hfail ⊢
        simpa [UpOutcome.fs_now] using htr
      · rw [if_neg hcp] at hfail ⊢
        have hst := stage_files_outside cfg param.override S.pic_directory param.category
          parts 0 [] (truncate_temp S.pic_directory fs0) hclean k hk
        cases hres : stage_files cfg param.override S.pic_directory param.category parts 0 []
            (truncate_temp S.pic_directory fs0) with
        | panicked fs =>
          rw [hres] at hfail
          exact Option.noConfusion hfail
        | failed c m fs =>
          rw [hres] at hst
          simp only [StageRes.fs_now] at hst
          simp only [hres, UpOutcome.fs_now]
          rw [hst, htr]
        | staged ns fs =>
          simp only [hres] at hfail
          cases hcm : commit_all S.pic_directory param.category S.pic_url_prefix ns [] fs with
          | panicked fs2 =>
            simp only [hcm] at hfail
            exact Option.noConfusion hfail
          | committed us fs2 =>
            simp only [hcm] at hfail
            exact absurd (Option.some.inj hfail) (by decide)

/-- C2 is false as literally stated: a first part named
"../asset/pic/evil" stages straight into the committed store; when the
second part then fails the filename gate, the upload reports the failure
envelope yet the committed store now holds the staged file. -/
theorem C2_counterexample :
    (upload_img exS exP
        [⟨some "../asset/pic/evil", some "image/png", some [7]⟩, ⟨none, none, none⟩]
        exFs).status = some 400 ∧
    (upload_img exS exP
        [⟨some "../asset/pic/evil", some "image/png", some [7]⟩, ⟨none, none, none⟩]
        exFs).code = some ResponseCode.BAD_FILE_NAME ∧
    (normKey exS.pic_directory ++ ["asset"]).isPrefixOf ["d", "asset", "pic", "evil"] = true ∧
    exFs ["d", "asset", "pic", "evil"] = none ∧
    (upload_img exS exP
        [⟨some "../asset/pic/evil", some "image/png", some [7]⟩, ⟨none, none, none⟩]
        exFs).fs_now ["d", "asset", "pic", "evil"] = some [7] := by
  decide

theorem C2_all_or_nothing_witness :
    (upload_img exS exP [⟨some "good", some "image/png", some [1]⟩, ⟨none, none, none⟩]
      exFs).fs_now ["d", "asset", "pic", "x"] = exFs ["d", "asset", "pic", "x"] :=
  C2_all_or_nothing exS exP
    [⟨some "good", some "image/png", some [1]⟩, ⟨none, none, none⟩] exFs
    (by decide) (by decide) ["d", "asset", "pic", "x"] (by decide)

/-- C6: a part declaring a non-image content type is rejected with
NotAnImage when the category disallows non-image content (whatever valid
parts preceded it), and when the category allows non-image content no
upload whatsoever is answered with NotAnImage. -/
theorem C6_content_policy (S : SrvState) (param : UploadImgParam) (cfg : CategoryConfig)
    (pre : List Part) (f ct : String) (bs : Option Bytes) (rest : List Part)
    (fs0 : Fs) (ns : List String) (fsP : Fs)
    (htok : param.access_token = S.access_token)
    (hcat : S.categories.lookup param.category = some cfg)
    (hcp : param.compress = 0)
    (hno : contains_sub ct "image" = false)
    (hpre : stage_files cfg param.override S.pic_directory param.category pre 0 []
      (truncate_temp S.pic_directory fs0) = .staged ns fsP) :
    (cfg.allow_non_image_content = false →
      (upload_img S param (pre ++ ⟨some f, some ct, bs⟩ :: rest) fs0).code
        = some ResponseCode.NOT_A_IMAGE) ∧
    (cfg.allow_non_image_content = true →
      ∀ parts : List Part,
        (upload_img S param parts fs0).code ≠ some ResponseCode.NOT_A_IMAGE) := by
  have hne : ¬ param.access_token ≠ S.access_token := by simp [htok]
  have hcp' : ¬ param.compress ≠ 0 := by simp [hcp]
  constructor
  · intro hal
    have hg : ct_gate cfg (some ct) = CtGate.reject := by
      simp [ct_gate, hal, hno]
    simp only [upload_img, if_neg hne, hcat, if_neg hcp',
      stage_files_app cfg param.override S.pic_directory param.category pre
        (⟨some f, some ct, bs⟩ :: rest) 0 [] (truncate_temp S.pic_directory fs0),
      hpre, stage_files, hg, UpOutcome.code]
  · intro hal parts
    simp only [upload_img, if_neg hne, hcat, if_neg hcp']
    cases hres : stage_files cfg param.override S.pic_directory param.category parts 0 []
        (truncate_temp S.pic_directory fs0) with
    | panicked fs =>
      simp only [hres]
      intro hx
      exact Option.noConfusion hx
    | failed c m fs =>
      have hc := stage_files_no_reject cfg hal param.override S.pic_directory
        param.category parts 0 [] (truncate_temp S.pic_directory fs0) c m fs hres
      simp only [hres]
      intro hx
      exact hc (Option.some.inj hx)
    | staged ns2 fs =>
      simp only [hres]
      cases hcm : commit_all S.pic_directory param.category S.pic_url_prefix ns2 [] fs with
      | panicked fs2 =>
        simp only [hcm]
        intro hx
        exact Option.noConfusion hx
      | committed us fs2 =>
        simp only [hcm]
        intro hx
        exact absurd (Option.some.inj hx) (by decide)

theorem C6_content_policy_witness :
    (upload_img exSimg exP ([] ++ ⟨some "doc.pdf", some "application/pdf", some [1]⟩ :: [])
      exFs).code = some ResponseCode.NOT_A_IMAGE :=
  (C6_content_policy exSimg exP ⟨false⟩ [] "doc.pdf" "application/pdf" (some [1]) []
    exFs [] (truncate_temp exSimg.pic_directory exFs)
    rfl (by decide) rfl (by decide) rfl).1 rfl

/-- C8: when the category disallows non-image content, a part that supplies
a filename but no content type drives the handler into unwrapping a missing
content type: a panic, not an error envelope; the filesystem at the crash
is exactly what the earlier parts staged. -/
theorem C8_missing_content_type (S : SrvState) (param : UploadImgParam)
    (cfg : CategoryConfig) (pre : List Part) (f : String) (bs : Option Bytes)
    (rest : List Part) (fs0 : Fs) (ns : List String) (fsP : Fs)
    (htok : param.access_token = S.access_token)
    (hcat : S.categories.lookup param.category = some cfg)
    (hal : cfg.allow_non_image_content = false)
    (hcp : param.compress = 0)
    (hpre : stage_files cfg param.override S.pic_directory param.category pre 0 []
      (truncate_temp S.pic_directory fs0) = .staged ns fsP) :
    upload_img S param (pre ++ ⟨some f, none, bs⟩ :: rest) fs0 = .panicked fsP := by
  have hne : ¬ param.access_token ≠ S.access_token := by simp [htok]
  have hcp' : ¬ param.compress ≠ 0 := by simp [hcp]
  have hg : ct_gate cfg none = CtGate.panicCt := by simp [ct_gate, hal]
  simp only [upload_img, if_neg hne, hcat, if_neg hcp',
    stage_files_app cfg param.override S.pic_directory param.category pre
      (⟨some f, none, bs⟩ :: rest) 0 [] (truncate_temp S.pic_directory fs0),
    hpre, stage_files, hg]

theorem C8_missing_content_type_witness :
    upload_img exSimg exP ([] ++ ⟨some "a", none, some [1]⟩ :: []) exFs
      = .panicked (truncate_temp exSimg.pic_directory exFs) :=
  C8_missing_content_type exSimg exP ⟨false⟩ [] "a" (some [1]) [] exFs []
    (truncate_temp exSimg.pic_directory exFs) rfl (by decide) rfl rfl rfl

/-- C9: the commit loop unwraps every rename, so once staging has
succeeded the upload either panics or reports full success — no error
envelope (in particular no InternalError) can arise from the commit phase;
concretely, a batch of two parts sharing one filename panics on the second
rename while the file moved by the first rename remains committed. -/
theorem C9_commit_unwrap (S : SrvState) (param : UploadImgParam) (parts : List Part)
    (fs0 : Fs) (cfg : CategoryConfig) (ns : List String) (fsP : Fs)
    (htok : param.access_token = S.access_token)
    (hcat : S.categories.lookup param.category = some cfg)
    (hcp : param.compress = 0)
    (hpre : stage_files cfg param.override S.pic_directory param.category parts 0 []
      (truncate_temp S.pic_directory fs0) = .staged ns fsP) :
    ((upload_img S param parts fs0).is_panic = true ∨
      ((upload_img S param parts fs0).status = some 200 ∧
        (upload_img S param parts fs0).code = some ResponseCode.OK)) ∧
    (upload_img exS exP
      [⟨some "a", some "image/png", some [1]⟩, ⟨some "a", some "image/png", some [2]⟩]
      exFs).is_panic = true ∧
    (upload_img exS exP
      [⟨some "a", some "image/png", some [1]⟩, ⟨some "a", some "image/png", some [2]⟩]
      exFs).fs_now ["d", "asset", "pic", "a"] = some [2] := by
  refine ⟨?_, by decide, by decide⟩
  have hne : ¬ param.access_token ≠ S.access_token := by simp [htok]
  have hcp' : ¬ param.compress ≠ 0 := by simp [hcp]
  simp only [upload_img, if_neg hne, hcat, if_neg hcp', hpre]
  cases hcm : commit_all S.pic_directory param.category S.pic_url_prefix ns [] fsP with
  | panicked fs2 => exact Or.inl rfl
  | committed us fs2 => exact Or.inr ⟨rfl, rfl⟩

theorem C9_commit_unwrap_witness :
    ((upload_img exS exP [] exFs).is_panic = true ∨
      ((upload_img exS exP [] exFs).status = some 200 ∧
        (upload_img exS exP [] exFs).code = some ResponseCode.OK)) ∧
    (upload_img exS exP
      [⟨some "a", some "image/png", some [1]⟩, ⟨some "a", some "image/png", some [2]⟩]
      exFs).is_panic = true ∧
    (upload_img exS exP
      [⟨some "a", some "image/png", some [1]⟩, ⟨some "a", some "image/png", some [2]⟩]
      exFs).fs_now ["d", "asset", "pic", "a"] = some [2] :=
  C9_commit_unwrap exS exP [] exFs ⟨true⟩ [] (truncate_temp exS.pic_directory exFs)
    rfl (by decide) rfl rfl

/-- C3 fails on the code: the collision pre-check of upload_img tests
`<dir>/<category>/<filename>` while committed assets live under
`<dir>/asset/<category>/<filename>`, so a second upload of the same
(category, filename) without override is not answered with FileExisted: it
succeeds (code 0) and silently replaces the committed bytes. -/
theorem C3_collision_check_misses :
    (upload_img exS exP [⟨some "a", some "image/png", some [1]⟩] exFs).status = some 200 ∧
    (upload_img exS exP [⟨some "a", some "image/png", some [1]⟩] exFs).fs_now
      ["d", "asset", "pic", "a"] = some [1] ∧
    (upload_img exS exP [⟨some "a", some "image/png", some [2]⟩]
      ((upload_img exS exP [⟨some "a", some "image/png", some [1]⟩] exFs).fs_now)).code
      = some ResponseCode.OK ∧
    (upload_img exS exP [⟨some "a", some "image/png", some [2]⟩]
      ((upload_img exS exP [⟨some "a", some "image/png", some [1]⟩] exFs).fs_now)).code
      ≠ some ResponseCode.FILE_EXISTED ∧
    (upload_img exS exP [⟨some "a", some "image/png", some [2]⟩]
      ((upload_img exS exP [⟨some "a", some "image/png", some [1]⟩] exFs).fs_now)).fs_now
      ["d", "asset", "pic", "a"] = some [2] ∧
    get_img exS
      ((upload_img exS exP [⟨some "a", some "image/png", some [2]⟩]
        ((upload_img exS exP [⟨some "a", some "image/png", some [1]⟩] exFs).fs_now)).fs_now)
      "pic" "a" 0 = (200, [2]) := by
  decide

/-- C4 is false as stated: with override false and the destination already
present in the committed store (and hence present at commit time), the
commit does not fail cleanly — the upload reports success and the rename
replaces the stored bytes. -/
theorem C4_counterexample :
    exP.override = false ∧
    exFs1 ["d", "asset", "pic", "a"] = some [1] ∧
    (upload_img exS exP [⟨some "a", some "image/png", some [2]⟩] exFs1).status = some 200 ∧
    (upload_img exS exP [⟨some "a", some "image/png", some [2]⟩] exFs1).fs_now
      ["d", "asset", "pic", "a"] = some [2] := by
  decide

/-- C4 (amended): the store performs no collision re-check at commit time:
whenever the earlier gates pass and the mis-pathed pre-check finds nothing,
the commit renames over the destination although override is false and the
destination exists at commit time, and the upload reports success. -/
theorem C4_no_commit_recheck (S : SrvState) (param : UploadImgParam)
    (cfg : CategoryConfig) (f : String) (ct : Option String) (B bOld : Bytes) (fs0 : Fs)
    (htok : param.access_token = S.access_token)
    (hcat : S.categories.lookup param.category = some cfg)
    (hcp : param.compress = 0)
    (hct : ct_gate cfg ct = CtGate.pass)
    (hov : param.override = false)
    (hpre : ((truncate_temp S.pic_directory fs0)
      (normKey (uri_concat S.pic_directory [param.category, f]))).isSome = false)
    (hdst : (fs_write (truncate_temp S.pic_directory fs0)
        (uri_concat S.pic_directory ["temp", f]) B)
        (normKey (uri_concat S.pic_directory ["asset", param.category, f]))
        = some bOld) :
    (upload_img S param [⟨some f, ct, some B⟩] fs0).status = some 200 ∧
    (upload_img S param [⟨some f, ct, some B⟩] fs0).fs_now
      (normKey (uri_concat S.pic_directory ["asset", param.category, f])) = some B := by
  have hne : ¬ param.access_token ≠ S.access_token := by simp [htok]
  have hcp' : ¬ param.compress ≠ 0 := by simp [hcp]
  have hcond : ¬ (param.override = false ∧
      ((truncate_temp S.pic_directory fs0)
        (normKey (uri_concat S.pic_directory [param.category, f]))).isSome = true) := by
    rintro ⟨_, h2⟩
    rw [hpre] at h2
    cases h2
  simp only [upload_img, if_neg hne, hcat, if_neg hcp', stage_files, hct, if_neg hcond,
    List.nil_append, commit_all, fs_write, if_pos rfl, UpOutcome.status, UpOutcome.fs_now]
  refine ⟨rfl, ?_⟩
  simp [fs_rename, fs_write]

theorem C4_no_commit_recheck_witness :
    (upload_img exS exP [⟨some "a", some "image/png", some [2]⟩] exFs1).status = some 200 ∧
    (upload_img exS exP [⟨some "a", some "image/png", some [2]⟩] exFs1).fs_now
      (normKey (uri_concat exS.pic_directory ["asset", exP.category, "a"])) = some [2] :=
  C4_no_commit_recheck exS exP ⟨true⟩ "a" (some "image/png") [2] [1] exFs1
    rfl (by decide) rfl (by decide) rfl (by decide) (by decide)

/-- C7 is false as stated: with a known category, a stored file and a
nonzero compress parameter, get_img answers 501, which is neither 200 nor
404. -/
theorem C7_counterexample :
    get_img exS exFs1 "pic" "a" 1 = (501, []) ∧
    (get_img exS exFs1 "pic" "a" 1).1 ≠ 200 ∧
    (get_img exS exFs1 "pic" "a" 1).1 ≠ 404 := by
  decide

/-- C7 (amended): a retrieval yields 200 with the file's bytes, or 404
with an empty body — both an unknown category and a failed open give 404 —
or 501 with an empty body when a nonzero compress parameter reaches a file
that opened; no other status occurs. -/
theorem C7_retrieval_statuses (S : SrvState) (fs : Fs) (c f : String) (comp : Nat) :
    ((S.categories.lookup c).isNone = true → get_img S fs c f comp = (404, [])) ∧
    ((S.categories.lookup c).isNone = false →
      fs (normKey (uri_concat S.pic_directory ["asset", c, f])) = none →
      get_img S fs c f comp = (404, [])) ∧
    (∀ b, (S.categories.lookup c).isNone = false →
      fs (normKey (uri_concat S.pic_directory ["asset", c, f])) = some b →
      ((comp ≠ 0 → get_img S fs c f comp = (501, [])) ∧
        (comp = 0 → get_img S fs c f comp = (200, b)))) := by
  refine ⟨fun h1 => ?_, fun h1 h2 => ?_, fun b h1 h2 => ⟨fun h3 => ?_, fun h3 => ?_⟩⟩
  · simp [get_img, h1]
  · simp [get_img, h1, h2]
  · simp [get_img, h1, h2, h3]
  · simp [get_img, h1, h2, h3]

theorem C7_retrieval_statuses_witness :
    get_img exS exFs1 "nope" "x" 0 = (404, []) ∧
    get_img exS exFs1 "pic" "a" 0 = (200, [1]) :=
  ⟨(C7_retrieval_statuses exS exFs1 "nope" "x" 0).1 (by decide),
    ((C7_retrieval_statuses exS exFs1 "pic" "a" 0).2.2 [1] (by decide) (by decide)).2 rfl⟩

/-- C10: upload paths are the literal slash-joined concatenation of the
storage directory, the fixed segments and the client filename used
verbatim (uri_concat), so a filename containing ".." resolves outside the
intended directory: filename "../secret" stages at d/secret, outside
d/temp, and commits at d/asset/secret, outside the category directory
d/asset/pic. -/
theorem C10_path_traversal :
    (∀ base a b : String, (uri_concat base [a, b]).data
      = base.data ++ '/' :: (a.data ++ '/' :: b.data)) ∧
    normKey (uri_concat "d" ["temp", "../secret"]) = ["d", "secret"] ∧
    ["d", "temp"].isPrefixOf ["d", "secret"] = false ∧
    (upload_img exS exP [⟨some "../secret", some "image/png", some [9]⟩] exFs).status
      = some 200 ∧
    (upload_img exS exP [⟨some "../secret", some "image/png", some [9]⟩] exFs).fs_now
      ["d", "asset", "secret"] = some [9] ∧
    ["d", "asset", "pic"].isPrefixOf ["d", "asset", "secret"] = false :=
  ⟨uri2_data, by decide⟩

end Picup
